import Mathlib

/- Shallow embedding of svelte-microanimations (src/lib/actions.ts).

   Conventions: JS strings are Lean String; JS numbers are ℚ (the sampling
   arithmetic is exact here, whereas JS uses binary floats; the formulas are
   translated symbolically); a JS computation that can throw is embedded as an
   Option-valued function, `none` meaning a thrown exception. -/

attribute [local semireducible] Rat.mul Rat.inv Rat.add Rat.sub

/-- Evaluating `xs.map f` in JS when `f` may throw: the whole map throws as
soon as one element does (`none` propagates). -/
def traverse_opt {α β : Type} (f : α → Option β) : List α → Option (List β)
  | [] => some []
  | x :: xs =>
    match f x, traverse_opt f xs with
    | some y, some ys => some (y :: ys)
    | _, _ => none

/-- JS `String.prototype.split` with a single-character separator, on the
character list of the string. `"".split(sep)` is `[""]`, a trailing separator
yields a trailing empty segment, exactly as in JS. -/
def splitOnChar (sep : Char) : List Char → List (List Char)
  | [] => [[]]
  | c :: rest =>
    match splitOnChar sep rest with
    | [] => [[]]
    | g :: gs => if c = sep then [] :: g :: gs else (c :: g) :: gs

/-- JS `s.split(sep)` for a single-character separator. -/
def jsSplit (sep : Char) (s : String) : List String :=
  (splitOnChar sep s.data).map String.mk

/-- ASCII whitespace recognised by JS `String.prototype.trim` (the Unicode
extras of JS trim are irrelevant to the CSS text produced here). -/
def isJsSpace (c : Char) : Bool :=
  c = ' ' || c = '\t' || c = '\n' || c = '\r' || c = '\x0b' || c = '\x0c'

/-- Remove leading and trailing whitespace from a character list. -/
def trimChars (l : List Char) : List Char :=
  ((l.dropWhile isJsSpace).reverse.dropWhile isJsSpace).reverse

/-- JS `s.trim()`. -/
def jsTrim (s : String) : String := String.mk (trimChars s.data)

/-- A `Keyframe` object: a JS object mapping style-property names to string
values, modelled as an insertion-ordered association list. -/
abbrev Keyframe := List (String × String)

/-- JS object property assignment `kf[k] = v`: overwrite in place when the key
exists, otherwise append in insertion order. -/
def setProp (kf : Keyframe) (k v : String) : Keyframe :=
  if kf.any (fun p => p.fst = k) then kf.map (fun p => if p.fst = k then (k, v) else p)
  else kf ++ [(k, v)]

/-- `word[0].toUpperCase() + word.slice(1)` (actions.ts line 70): indexing an
empty string gives `undefined`, and `.toUpperCase()` on it throws a TypeError,
hence `none` on the empty word. JS full-Unicode upper-casing is modelled by
`Char.toUpper`; CSS property names are ASCII. -/
def capitalize_word (w : String) : Option String :=
  match w.data with
  | [] => none
  | c :: rest => some (String.mk (c.toUpper :: rest))

/-- `property.startsWith('--')` (actions.ts line 61). -/
def starts_with_two_dashes (p : String) : Bool :=
  match p.data with
  | '-' :: '-' :: _ => true
  | _ => false

/-- `css_property_to_camelcase` (actions.ts lines 58-73). `none` models the
TypeError thrown when a non-first hyphen segment is empty. -/
def css_property_to_camelcase (property : String) : Option String :=
  if property = "float" then some ("cssFloat")
  else if property = "offset" then some ("cssOffset")
  else if starts_with_two_dashes property then some property
  else
    match jsSplit '-' property with
    | [] => none
    | [p] => some p
    | p :: rest =>
      (traverse_opt capitalize_word rest).map (fun ws => p ++ String.join ws)

/-- The loop body of `css_to_keyframe` (actions.ts lines 47-53), processing the
`;`-separated parts in order with the accumulated keyframe object. A part whose
`:`-split lacks a property or a value breaks out of the loop; a part whose
property cannot be camel-cased throws (`none`). -/
def css_to_keyframe_parts : List String → Keyframe → Option Keyframe
  | [], kf => some kf
  | part :: rest, kf =>
    match jsSplit ':' part with
    | property :: value :: _ =>
      if property = "" then some kf
      else
        match css_property_to_camelcase (jsTrim property) with
        | none => none
        | some fp => css_to_keyframe_parts rest (setProp kf fp (jsTrim value))
    | _ => some kf

/-- `css_to_keyframe` (actions.ts lines 43-56). -/
def css_to_keyframe (css : String) : Option Keyframe :=
  css_to_keyframe_parts (jsSplit ';' css) []

/-- Svelte's `linear` easing, the driver's default easing. -/
def linear_easing (t : ℚ) : ℚ := t

/-- `TransitionConfig` as consumed by `animate` (actions.ts line 80): fields
may be absent (`undefined`), defaults are applied by destructuring. The css
function maps `(t, u)` to a CSS text; `hasTick` records whether a `tick` hook
is present (its effect is opaque to the driver, only its invocation matters). -/
structure DriverConfig where
  delay : Option ℚ
  duration : Option ℚ
  css : Option (ℚ → ℚ → String)
  hasTick : Bool
  easing : Option (ℚ → ℚ)

/-- `delay = 0` default of the destructuring on actions.ts line 80. -/
def DriverConfig.delayV (c : DriverConfig) : ℚ := c.delay.getD 0

/-- `duration = 400` default of the destructuring on actions.ts line 80.
(The later `duration || 0` maps 0 to 0 and is the identity on ℚ.) -/
def DriverConfig.durationV (c : DriverConfig) : ℚ := c.duration.getD 400

/-- `easing = linear` default of the destructuring on actions.ts line 80. -/
def DriverConfig.easingV (c : DriverConfig) : ℚ → ℚ := c.easing.getD linear_easing

/-- `Math.ceil((duration) / (1000 / 60))` (actions.ts line 96 and line 232). -/
def frame_count (duration : ℚ) : ℤ := Int.ceil (duration / (1000 / 60))

/-- One sampled keyframe: `css_to_keyframe(css(t, 1 - t))` at `t = easing(i/n)`
(actions.ts lines 99-101 and 234-236). -/
def sample_keyframe (easing : ℚ → ℚ) (css : ℚ → ℚ → String) (n : ℤ) (i : ℚ) :
    Option Keyframe :=
  css_to_keyframe (css (easing (i / (n : ℚ))) (1 - easing (i / (n : ℚ))))

/-- The driver's main-stage sampling loop `for (let i = 0; i <= n; i += 1)`
(actions.ts lines 96-102): indices increase from 0 to n. A non-positive
duration would give `n ≤ 0` (`n = 0` puts JS in `0/0 = NaN` territory, which
the rational model does not represent; the claims are stated for positive
durations). -/
def sampled_keyframes (duration : ℚ) (easing : ℚ → ℚ) (css : ℚ → ℚ → String) :
    Option (List Keyframe) :=
  let n := frame_count duration
  if n < 0 then some []
  else traverse_opt (fun i => sample_keyframe easing css n ((i : ℕ) : ℚ)) (List.range (n.toNat + 1))

/-- The hover sampling loop `for (let i = n; i >= 0; i -= 1)` (actions.ts
lines 232-237): indices decrease from n to 0, so list position j holds the
sample at `i = n - j`. -/
def hover_keyframes (duration : ℚ) (easing : ℚ → ℚ) (css : ℚ → ℚ → String) :
    Option (List Keyframe) :=
  let n := frame_count duration
  if n < 0 then some []
  else traverse_opt (fun j => sample_keyframe easing css n ((n : ℚ) - ((j : ℕ) : ℚ)))
    (List.range (n.toNat + 1))

/-- Keyframes of the preliminary delay-stage animation (actions.ts lines
81-87): with a css function, the identity pair `[styles, styles]` at
`css(0, 1)`; without one, the empty list. -/
def prelim_keyframes (c : DriverConfig) : Option (List Keyframe) :=
  match c.css with
  | none => some []
  | some css => (css_to_keyframe (css 0 1)).map (fun s => [s, s])

/-- Keyframes of the main-stage animation (actions.ts lines 93-103). -/
def main_keyframes (c : DriverConfig) : Option (List Keyframe) :=
  match c.css with
  | none => some []
  | some css => sampled_keyframes c.durationV c.easingV css

/-- Which `onfinish` handler is currently installed on the driver's `animation`
variable: the delay-stage handler that starts the main stage (line 92), the
main-stage completion handler (line 110), the neutral handler installed by
`abort` (line 121), or the callback installed by `reverse` (line 126). -/
inductive DHandler
  | toMain
  | toComplete
  | noopH
  | customH
deriving DecidableEq, Repr

/-- The driver handle's mutable state: the installed handler, whether the
`animation` variable already points at the main-stage animation, and whether
`abort` has detached the effect (line 120). -/
structure DriverState where
  handler : DHandler
  mainPhase : Bool
  effectDetached : Bool
deriving DecidableEq, Repr

/-- Observable actions of the driver against the platform animation API and
its caller. `play kfs d fwd` is `element.animate(kfs, {duration: d, ...})`
with `fwd` recording `fill: 'forwards'`. -/
inductive DriverOut
  | play (kfs : List Keyframe) (duration : ℚ) (fillForwards : Bool)
  | callTick
  | callOnFinish
  | callReverseCb
  | cancel
  | reverseAnim
deriving DecidableEq, Repr

/-- Entering `animate` (actions.ts lines 79-91): build the delay-stage
keyframes and play them with `{duration: delay}` (no fill). This happens
unconditionally, whatever the value of `delay`. `none` models a throw while
translating `css(0, 1)`. -/
def animate_start (c : DriverConfig) : Option (DriverState × List DriverOut) :=
  (prelim_keyframes c).map (fun kfs =>
    (⟨DHandler.toMain, false, false⟩, [DriverOut.play kfs c.delayV false]))

/-- Delivery of a native `onfinish` event to the driver's current animation
(actions.ts lines 92-114 and 126-128). -/
def driver_finish (c : DriverConfig) (s : DriverState) : Option (DriverState × List DriverOut) :=
  match s.handler with
  | DHandler.toMain =>
    (main_keyframes c).map (fun kfs =>
      (⟨DHandler.toComplete, true, s.effectDetached⟩,
       [DriverOut.play kfs c.durationV true]))
  | DHandler.toComplete =>
    some (s, (if c.hasTick then [DriverOut.callTick] else []) ++ [DriverOut.callOnFinish])
  | DHandler.noopH => some (s, [])
  | DHandler.customH => some (s, [DriverOut.callReverseCb])

/-- `abort()` (actions.ts lines 117-123): cancel the current animation, detach
its effect, and install the neutral `onfinish` handler. The `if (animation)`
guard is always true, since `animation` is assigned when `animate` is entered. -/
def driver_abort (s : DriverState) : DriverState × List DriverOut :=
  (⟨DHandler.noopH, s.mainPhase, true⟩, [DriverOut.cancel])

/-- `reverse(onFinish)` (actions.ts lines 124-131): rewire `onfinish` to the
given callback and play the current animation backwards. -/
def driver_reverse (s : DriverState) : DriverState × List DriverOut :=
  (⟨DHandler.customH, s.mainPhase, s.effectDetached⟩, [DriverOut.reverseAnim])

/-- The outputs produced by delivering up to `k` further finish events. -/
def driver_finishes (c : DriverConfig) (s : DriverState) : ℕ → List DriverOut
  | 0 => []
  | k + 1 =>
    match driver_finish c s with
    | none => []
    | some (s1, o) => o ++ driver_finishes c s1 k

/-- The native animation options passed by `start_hover_animation` (actions.ts
lines 240-245): keyframes, duration, delay, `fill: 'both'`, and the literal
easing setting `'linear'` (easing is pre-applied into the keyframes). -/
structure HoverStart where
  keyframes : List Keyframe
  duration : ℚ
  delay : ℚ
  fillBoth : Bool
  easingSetting : String
deriving DecidableEq, Repr

/-- `start_hover_animation` (actions.ts lines 221-253): sample the descriptor
with the decreasing-index loop and start a native animation with linear
playback and fill-both. `none` models a throw while translating a sample. -/
def start_hover_animation (c : DriverConfig) : Option HoverStart :=
  match c.css with
  | none => some ⟨[], c.durationV, c.delayV, true, "linear"⟩
  | some css =>
    (hover_keyframes c.durationV c.easingV css).map
      (fun kfs => ⟨kfs, c.durationV, c.delayV, true, "linear"⟩)

/-- The `mode` parameter of `microanimation` (actions.ts line 40). -/
inductive Mode
  | viewport
  | hover
  | immediate
deriving DecidableEq, Repr

/-- The raw `MicroanimationParameters` object (actions.ts lines 35-41):
optional fields are `Option`; the transition function and its params object
are identified by opaque ids (their content is consumed by the driver, not by
the orchestrator). -/
structure OrchConfig where
  transitionId : ℕ
  paramsId : Option ℕ
  threshold : Option ℚ
  once : Option Bool
  mode : Option Mode
deriving DecidableEq, Repr

/-- Configuration after defaulting: `params = {}`, `threshold = 0.5`,
`once = true`, `mode = 'viewport'` (actions.ts lines 179-182 and 339-342). -/
structure Seeded where
  transitionId : ℕ
  paramsId : ℕ
  threshold : ℚ
  once : Bool
  mode : Mode
deriving DecidableEq, Repr

/-- Apply the defaults shared by the attach destructuring and `update`. -/
def seed (p : OrchConfig) : Seeded :=
  ⟨p.transitionId, p.paramsId.getD 0, p.threshold.getD (1 / 2), p.once.getD true,
   p.mode.getD Mode.viewport⟩

/-- The mutable closure state of one `microanimation` attachment (actions.ts
lines 185-191) together with the DOM facts the claims are about: whether the
`animation` / `hoverAnimation` variables are set, whether the observer exists
and is connected, whether the placeholder exists and is in the DOM and its
captured `display`, the node's inline `style.display` (`none` = never set),
and whether the hover listeners are attached. Styles other than `display` are
not tracked (the transitions in this repository never emit a `display`
declaration, so the `Object.assign` of the first keyframe cannot change it). -/
structure OrchState where
  cfg : Seeded
  animated : Bool
  hovered : Bool
  animationDefined : Bool
  hoverAnimDefined : Bool
  observerCreated : Bool
  observerConnected : Bool
  placeholderCreated : Bool
  placeholderInDom : Bool
  placeholderDisplay : String
  nodeDisplay : Option String
  listeners : Bool
deriving DecidableEq, Repr

/-- Observable actions of the orchestrator. -/
inductive OrchOut
  | abortDriver
  | startDriver (transitionId paramsId : ℕ)
  | startHover
  | reverseHover
  | obsObserve
  | obsDisconnect
deriving DecidableEq, Repr

/-- `getComputedStyle(node).display`: the inline style if set, else the node's
intrinsic display `d0`. -/
def computed_display (s : OrchState) (d0 : String) : String :=
  s.nodeDisplay.getD d0

/-- `start_animation` (actions.ts lines 193-219): guarded by
`if (animated && once) return`, sets `animated = true`, in viewport mode
removes the placeholder and restores the node's display from it, aborts any
previous driver run, and starts the driver. -/
def orch_start_animation (s : OrchState) : OrchState × List OrchOut :=
  if s.animated && s.cfg.once then (s, [])
  else
    let s1 := {s with animated := true}
    let s2 :=
      if s1.cfg.mode = Mode.viewport then
        {s1 with placeholderInDom := false, nodeDisplay := some s1.placeholderDisplay}
      else s1
    let outs := if s2.animationDefined then [OrchOut.abortDriver] else []
    ({s2 with animationDefined := true},
     outs ++ [OrchOut.startDriver s2.cfg.transitionId s2.cfg.paramsId])

/-- `setup` (actions.ts lines 274-317): viewport mode builds the placeholder
from the node's computed style, hides the node (`display: 'none'`), and
observes the placeholder; hover mode attaches the pointer listeners; immediate
mode calls `start_animation` at once. -/
def orch_setup (s : OrchState) (d0 : String) : OrchState × List OrchOut :=
  match s.cfg.mode with
  | Mode.viewport =>
    let d := computed_display s d0
    ({s with placeholderCreated := true, placeholderInDom := true, placeholderDisplay := d,
             nodeDisplay := some ("none"), observerCreated := true, observerConnected := true},
     [OrchOut.obsObserve])
  | Mode.hover => ({s with listeners := true}, [])
  | Mode.immediate => orch_start_animation s

/-- The closure state at the top of `microanimation`, before `setup` runs
(actions.ts lines 185-191); `nd` is the node's pre-existing inline display. -/
def init_state (cfg : Seeded) (nd : Option String) : OrchState :=
  ⟨cfg, false, false, false, false, false, false, false, false, "", nd, false⟩

/-- Attaching `use:microanimation` to a node (actions.ts lines 175-319):
default the parameters and run `setup`. -/
def orch_attach (p : OrchConfig) (d0 : String) (nd : Option String) :
    OrchState × List OrchOut :=
  orch_setup (init_state (seed p) nd) d0

/-- The `onFinish` callback the orchestrator passes to `animate` (actions.ts
lines 213-218): clears the `animation` variable and, in hover mode, resets
`animated`. Guarded on a driver run existing, since the driver only invokes it
on main-stage completion. -/
def orch_driver_finish (s : OrchState) : OrchState :=
  if s.animationDefined then
    {s with animationDefined := false,
            animated := if s.cfg.mode = Mode.hover then false else s.animated}
  else s

/-- `handle_hover_animation` on `mouseenter` (actions.ts lines 255-260): only
acts when the listeners are attached and `hovered` is false. -/
def orch_enter (s : OrchState) : OrchState × List OrchOut :=
  if s.listeners then
    if s.hovered then (s, [])
    else ({s with hovered := true, hoverAnimDefined := true}, [OrchOut.startHover])
  else (s, [])

/-- `reverse_animation` on `mouseleave` (actions.ts lines 262-272): guarded by
`if (!hovered) return`; clears `hovered` and `animated`, then reverses the
existing hover animation (it never aborts and restarts it). -/
def orch_leave (s : OrchState) : OrchState × List OrchOut :=
  if s.listeners then
    if s.hovered then
      let s1 := {s with hovered := false, animated := false}
      if s1.hoverAnimDefined then (s1, [OrchOut.reverseHover]) else (s1, [])
    else (s, [])
  else (s, [])

/-- The IntersectionObserver callback (actions.ts lines 297-308): on an
intersecting entry call `start_animation` and, if `once`, disconnect. A
disconnected observer delivers nothing. -/
def orch_intersect (s : OrchState) (isIntersecting : Bool) : OrchState × List OrchOut :=
  if s.observerConnected then
    if isIntersecting then
      let r := orch_start_animation s
      if r.1.cfg.once then
        ({r.1 with observerConnected := false}, r.2 ++ [OrchOut.obsDisconnect])
      else r
    else (s, [])
  else (s, [])

/-- External events deliverable to one attachment. -/
inductive OEvent
  | intersect (isIntersecting : Bool)
  | driverFinish
  | enter
  | leave
deriving DecidableEq, Repr

/-- Deliver one event. -/
def orch_step (s : OrchState) : OEvent → OrchState × List OrchOut
  | OEvent.intersect b => orch_intersect s b
  | OEvent.driverFinish => (orch_driver_finish s, [])
  | OEvent.enter => orch_enter s
  | OEvent.leave => orch_leave s

/-- Deliver a list of events, returning the final state. -/
def orch_run (s : OrchState) : List OEvent → OrchState
  | [] => s
  | e :: es => orch_run (orch_step s e).1 es

/-- `destroy` (actions.ts lines 322-332): abort a pending driver run,
disconnect the observer, remove the listeners, and in viewport mode replace
the placeholder with the node when the placeholder is still in the DOM. The
node's inline `display` is left untouched. -/
def orch_destroy (s : OrchState) : OrchState × List OrchOut :=
  let o1 := if s.animationDefined then [OrchOut.abortDriver] else []
  let o2 := if s.observerCreated then [OrchOut.obsDisconnect] else []
  let s1 := {s with observerConnected := false, listeners := false}
  if s1.cfg.mode = Mode.viewport && s1.placeholderInDom then
    ({s1 with placeholderInDom := false}, o1 ++ o2)
  else (s1, o1 ++ o2)

/-- `update(newParams)` (actions.ts lines 333-344): abort a pending driver
run, disconnect the observer if one was created, re-seed the configuration
with the same defaults as attach, and re-run `setup`. The `animated`,
`hovered` flags, the listeners, and any placeholder are left as they are. -/
def orch_update (s : OrchState) (p : OrchConfig) (d0 : String) :
    OrchState × List OrchOut :=
  let o1 := if s.animationDefined then [OrchOut.abortDriver] else []
  let r2 :=
    if s.observerCreated then ({s with observerConnected := false}, [OrchOut.obsDisconnect])
    else (s, ([] : List OrchOut))
  let s2 := {r2.1 with cfg := seed p}
  let r3 := orch_setup s2 d0
  (r3.1, o1 ++ r2.2 ++ r3.2)

/-- Spec-side total capitalisation: "the first letter of the segment
upper-cased", defined only in the statements that assume the segment is
nonempty (on the empty segment it returns the empty string). -/
def capitalize_first (w : String) : String :=
  match w.data with
  | [] => ""
  | c :: rest => String.mk (Char.toUpper c :: rest)

/-- A `property: value` pair that is not "missing a property or a value" in
the sense of the `break` guard on actions.ts line 49: its `:`-split has a
nonempty property and at least a second field. -/
def complete_pair (part : String) : Bool :=
  match jsSplit ':' part with
  | property :: _ :: _ => !(property == "")
  | _ => false

/-- Whether a pair's trimmed property survives camel-casing (no throw). -/
def pair_convertible (part : String) : Bool :=
  match jsSplit ':' part with
  | property :: _ :: _ => (css_property_to_camelcase (jsTrim property)).isSome
  | _ => true

/-- Accumulate one complete pair into the mapping, as the spec describes it:
camel-case the trimmed property and record the trimmed value. -/
def keyframe_step (kf : Keyframe) (part : String) : Keyframe :=
  match jsSplit ':' part with
  | property :: value :: _ =>
    setProp kf ((css_property_to_camelcase (jsTrim property)).getD "") (jsTrim value)
  | _ => kf

/-- Spec-side mapping for C2, from the spec's words: "the property-to-value
mapping of the pairs preceding the first pair that is missing a property or a
value". -/
def spec_prefix_mapping (css : String) : Keyframe :=
  ((jsSplit ';' css).takeWhile complete_pair).foldl keyframe_step []

/-- A probe descriptor css function that distinguishes `t = 0` from `t ≠ 0`
(an `opacity` ramp, as in the spec's identity-fade scenario). -/
def css_probe : ℚ → ℚ → String := fun t _ => if t = 0 then "opacity:0" else "opacity:1"

/-- A concrete descriptor with no delay, duration 100, a constant css text,
and a tick hook. -/
def c6_config : DriverConfig := ⟨none, some 100, some (fun _ _ => "a:1"), true, none⟩

/-- A concrete attachment configuration: transition id 1, everything else
defaulted (viewport mode, threshold 0.5, once). -/
def viewport_cfg : OrchConfig := ⟨1, none, none, none, some Mode.viewport⟩

/-- A viewport attachment on a `display:block` node after its intersection
trigger has fired (the state both sides of the C5 comparison start from). -/
def stateA : OrchState :=
  orch_run (orch_attach viewport_cfg ("block") none).1 [OEvent.intersect true]

/-- `stateA` after `update` with the same configuration. -/
def stateU : OrchState := (orch_update stateA viewport_cfg ("block")).1

/-- `stateA` after `destroy()` followed by a fresh attachment with the same
configuration on the same DOM node (whose inline display survives destroy). -/
def stateD : OrchState :=
  (orch_attach viewport_cfg ("block") ((orch_destroy stateA).1.nodeDisplay)).1

/-- `splitOnChar` never returns the empty list of groups. -/
theorem splitOnChar_ne_nil (sep : Char) (l : List Char) : splitOnChar sep l ≠ [] := by
  cases l with
  | nil => simp [splitOnChar]
  | cons c rest =>
    simp only [splitOnChar]
    cases h : splitOnChar sep rest with
    | nil => simp
    | cons g gs =>
      by_cases hc : c = sep <;> simp [hc]

/-- Splitting on a character that does not occur returns the whole list as the
single group. -/
theorem splitOnChar_not_mem (sep : Char) (l : List Char) (h : ¬ sep ∈ l) :
    splitOnChar sep l = [l] := by
  induction l with
  | nil => rfl
  | cons c rest ih =>
    have hc : ¬ c = sep := fun he => h (he ▸ List.mem_cons_self c rest)
    have hr : ¬ sep ∈ rest := fun hm => h (List.mem_cons_of_mem c hm)
    simp only [splitOnChar, ih hr]
    simp [fun he => hc (he : c = sep)]

/-- Rebuilding a string from its characters is the identity. -/
theorem string_mk_data (s : String) : String.mk s.data = s := by
  cases s
  rfl

/-- On a list of nonempty words, the JS `map` of `capitalize_word` succeeds
and agrees with the total spec-side `capitalize_first`. -/
theorem traverse_opt_capitalize (l : List String) (h : ∀ w ∈ l, w ≠ "") :
    traverse_opt capitalize_word l = some (l.map capitalize_first) := by
  induction l with
  | nil => rfl
  | cons w ws ih =>
    have hw : w ≠ "" := h w (List.mem_cons_self w ws)
    have hwd : w.data ≠ [] := by
      intro hd
      apply hw
      cases w
      simp at hd
      simp [hd]
    simp only [traverse_opt]
    cases hcd : w.data with
    | nil => exact absurd hcd hwd
    | cons c rest =>
      rw [ih (fun x hx => h x (List.mem_cons_of_mem w hx))]
      simp [capitalize_word, capitalize_first, hcd]

/-- A list containing the empty word makes the JS `map` of `capitalize_word`
throw. -/
theorem traverse_opt_capitalize_none (l : List String) (h : "" ∈ l) :
    traverse_opt capitalize_word l = none := by
  induction l with
  | nil => cases h
  | cons w ws ih =>
    simp only [traverse_opt]
    rcases List.mem_cons.mp h with h1 | h2
    · subst h1
      rfl
    · rw [ih h2]
      cases capitalize_word w <;> rfl

/-- The translator loop realises the spec's prefix semantics: on any part list
whose complete-pair prefix has convertible properties, it returns the fold of
`keyframe_step` over exactly that prefix. -/
theorem css_to_keyframe_parts_spec (parts : List String) :
    ∀ kf, (∀ p ∈ parts.takeWhile complete_pair, pair_convertible p = true) →
    css_to_keyframe_parts parts kf =
      some (List.foldl keyframe_step kf (parts.takeWhile complete_pair)) := by
  induction parts with
  | nil =>
    intro kf _
    rfl
  | cons part rest ih =>
    intro kf hconv
    simp only [css_to_keyframe_parts]
    cases hs : jsSplit ':' part with
    | nil =>
      have hc : complete_pair part = false := by simp [complete_pair, hs]
      simp [List.takeWhile_cons, hc]
    | cons property tl =>
      cases tl with
      | nil =>
        have hc : complete_pair part = false := by simp [complete_pair, hs]
        simp [List.takeWhile_cons, hc]
      | cons value tl2 =>
        by_cases hp : property = ""
        · subst hp
          have hc : complete_pair part = false := by simp [complete_pair, hs]
          simp [List.takeWhile_cons, hc]
        · have hc : complete_pair part = true := by simp [complete_pair, hs, hp]
          have hcv : pair_convertible part = true := by
            apply hconv
            simp [List.takeWhile_cons, hc]
          have hsome : (css_property_to_camelcase (jsTrim property)).isSome = true := by
            simpa [pair_convertible, hs] using hcv
          obtain ⟨fp, hfp⟩ := Option.isSome_iff_exists.mp hsome
          have hrest : ∀ p ∈ rest.takeWhile complete_pair, pair_convertible p = true := by
            intro p hpmem
            apply hconv
            simp [List.takeWhile_cons, hc, hpmem]
          have hstep : keyframe_step kf part = setProp kf fp (jsTrim value) := by
            simp [keyframe_step, hs, hfp]
          simp [List.takeWhile_cons, hc, hfp, hp, hstep,
            ih (setProp kf fp (jsTrim value)) hrest]

/-- C2 counterexample: the claim says the translator "stops there without
raising" on every CSS text of pairs, but `"a--b:1;"` is a text whose first
pair has both a property and a value and the translator throws on it (the
camel-casing of `a--b` indexes the first character of an empty segment). -/
theorem claim_C2_counterexample : css_to_keyframe ("a--b:1;") = none := by decide

/-- C2 (amended): for every CSS text whose complete-pair prefix has
convertible properties, the Keyframe Translator returns the mapping of the
pairs preceding the first pair missing a property or a value and stops there;
the three example texts behave as stated. -/
theorem claim_C2_keyframe_translator :
    (∀ css : String,
      (∀ p ∈ (jsSplit ';' css).takeWhile complete_pair, pair_convertible p = true) →
      css_to_keyframe css = some (spec_prefix_mapping css)) ∧
    css_to_keyframe ("a:1;b:2;") = some [("a", "1"), ("b", "2")] ∧
    css_to_keyframe ("float:left;") = some [("cssFloat", "left")] ∧
    css_to_keyframe ("a;") = some [] := by
  refine ⟨?_, by decide, by decide, by decide⟩
  intro css h
  exact css_to_keyframe_parts_spec (jsSplit ';' css) [] h

/-- C2 witness: the general part of the amended claim applied to a concrete
text. -/
theorem claim_C2_witness :
    (∀ p ∈ (jsSplit ';' ("a:1;b:2;")).takeWhile complete_pair, pair_convertible p = true) ∧
    css_to_keyframe ("a:1;b:2;") = some (spec_prefix_mapping ("a:1;b:2;")) :=
  ⟨by decide, claim_C2_keyframe_translator.1 ("a:1;b:2;") (by decide)⟩

/-- C8: the camelCase conversion maps `float` to `cssFloat`, `offset` to
`cssOffset`, passes names starting with `--` through unchanged, and otherwise
splits on hyphens and joins the segments with the first letter of each segment
after the first upper-cased; a name with no hyphen is returned unchanged. The
split-and-join branch is stated for names whose segments after the first are
nonempty, which is what "the first letter of each segment" presupposes (C10
covers the empty-segment behaviour). -/
theorem claim_C8_camelcase :
    css_property_to_camelcase ("float") = some ("cssFloat") ∧
    css_property_to_camelcase ("offset") = some ("cssOffset") ∧
    (∀ p : String, starts_with_two_dashes p = true → css_property_to_camelcase p = some p) ∧
    (∀ p : String, p ≠ "float" → p ≠ "offset" → starts_with_two_dashes p = false →
      (∀ w ∈ (jsSplit '-' p).tail, w ≠ "") →
      css_property_to_camelcase p =
        some ((jsSplit '-' p).headD "" ++
          String.join (((jsSplit '-' p).tail).map capitalize_first))) ∧
    (∀ p : String, p ≠ "float" → p ≠ "offset" → starts_with_two_dashes p = false →
      ¬ '-' ∈ p.data → css_property_to_camelcase p = some p) := by
  refine ⟨by decide, by decide, ?_, ?_, ?_⟩
  · intro p hp
    have h1 : p ≠ "float" := by
      intro h
      subst h
      exact absurd hp (by decide)
    have h2 : p ≠ "offset" := by
      intro h
      subst h
      exact absurd hp (by decide)
    unfold css_property_to_camelcase
    rw [if_neg h1, if_neg h2, if_pos hp]
  · intro p h1 h2 h3 h4
    unfold css_property_to_camelcase
    rw [if_neg h1, if_neg h2, if_neg (by simp [h3])]
    cases hsp : jsSplit '-' p with
    | nil => exact absurd hsp (by simp [jsSplit, splitOnChar_ne_nil])
    | cons q rest =>
      cases rest with
      | nil => simp [hsp, String.join]
      | cons w ws =>
        have hmem : ∀ x ∈ w :: ws, x ≠ "" := by
          intro x hx
          apply h4
          rw [hsp]
          exact hx
        simp [hsp, traverse_opt_capitalize _ hmem]
  · intro p h1 h2 h3 hnm
    unfold css_property_to_camelcase
    rw [if_neg h1, if_neg h2, if_neg (by simp [h3])]
    have hsp : jsSplit '-' p = [p] := by
      unfold jsSplit
      rw [splitOnChar_not_mem _ _ hnm]
      simp [string_mk_data]
    simp [hsp]

/-- C8 witness: the split-and-join branch at `border-top-width`, the `--`
branch at `--x`, and the no-hyphen branch at `opacity`. -/
theorem claim_C8_witness :
    ((∀ w ∈ (jsSplit '-' ("border-top-width")).tail, w ≠ "") ∧
      css_property_to_camelcase ("border-top-width") =
        some ((jsSplit '-' ("border-top-width")).headD "" ++
          String.join (((jsSplit '-' ("border-top-width")).tail).map capitalize_first))) ∧
    css_property_to_camelcase ("--x") = some ("--x") ∧
    css_property_to_camelcase ("opacity") = some ("opacity") :=
  ⟨⟨by decide,
    claim_C8_camelcase.2.2.2.1 ("border-top-width") (by decide) (by decide) (by decide) (by decide)⟩,
   claim_C8_camelcase.2.2.1 ("--x") (by decide),
   claim_C8_camelcase.2.2.2.2 ("opacity") (by decide) (by decide) (by decide) (by decide)⟩

/-- C10 counterexample: the claim offers `-webkit-transform` as an input on
which the conversion fails, but its empty hyphen segment is the FIRST one,
which the code uses as-is without indexing: the conversion succeeds and
returns `WebkitTransform`. -/
theorem claim_C10_counterexample :
    css_property_to_camelcase ("-webkit-transform") = some ("WebkitTransform") := by decide

/-- C10 (amended): for any property name not starting with `--` that contains
an empty hyphen-separated segment AFTER the first (consecutive hyphens as in
`a--b`, or a trailing hyphen as in `a-`), the conversion indexes the first
character of an empty string and throws; a single leading hyphen only empties
the first segment, which is used directly, so `-webkit-transform` succeeds. -/
theorem claim_C10_empty_segment :
    ∀ p : String, starts_with_two_dashes p = false → "" ∈ (jsSplit '-' p).tail →
      css_property_to_camelcase p = none := by
  intro p h3 hmem
  have h1 : p ≠ "float" := by
    intro h
    subst h
    exact absurd hmem (by decide)
  have h2 : p ≠ "offset" := by
    intro h
    subst h
    exact absurd hmem (by decide)
  unfold css_property_to_camelcase
  rw [if_neg h1, if_neg h2, if_neg (by simp [h3])]
  cases hsp : jsSplit '-' p with
  | nil => rfl
  | cons q rest =>
    cases rest with
    | nil =>
      rw [hsp] at hmem
      cases hmem
    | cons w ws =>
      rw [hsp] at hmem
      simp only [List.tail_cons] at hmem
      simp [traverse_opt_capitalize_none _ hmem]

/-- C10 witness: the amended claim applied to `a--b`. -/
theorem claim_C10_witness :
    (starts_with_two_dashes ("a--b") = false ∧ "" ∈ (jsSplit '-' ("a--b")).tail) ∧
    css_property_to_camelcase ("a--b") = none :=
  ⟨⟨by decide, by decide⟩, claim_C10_empty_segment ("a--b") (by decide) (by decide)⟩

/-- A successful JS map preserves length. -/
theorem traverse_opt_length {α β : Type} (f : α → Option β) :
    ∀ (xs : List α) (ys : List β), traverse_opt f xs = some ys → ys.length = xs.length := by
  intro xs
  induction xs with
  | nil =>
    intro ys h
    simp only [traverse_opt] at h
    cases h
    rfl
  | cons x xs ih =>
    intro ys h
    simp only [traverse_opt] at h
    cases hfx : f x with
    | none => rw [hfx] at h; cases h
    | some y =>
      rw [hfx] at h
      cases ht : traverse_opt f xs with
      | none => rw [ht] at h; cases h
      | some ys1 =>
        rw [ht] at h
        cases h
        simp [ih ys1 ht]

/-- A successful JS map is pointwise: element i of the output is `f` of
element i of the input. -/
theorem traverse_opt_get {α β : Type} (f : α → Option β) :
    ∀ (xs : List α) (ys : List β), traverse_opt f xs = some ys →
      ∀ (i : ℕ) (hi : i < xs.length) (hi2 : i < ys.length),
        f (xs.get ⟨i, hi⟩) = some (ys.get ⟨i, hi2⟩) := by
  intro xs
  induction xs with
  | nil =>
    intro ys h i hi
    cases hi
  | cons x xs ih =>
    intro ys h i hi hi2
    simp only [traverse_opt] at h
    cases hfx : f x with
    | none => rw [hfx] at h; cases h
    | some y =>
      rw [hfx] at h
      cases ht : traverse_opt f xs with
      | none => rw [ht] at h; cases h
      | some ys1 =>
        rw [ht] at h
        cases h
        cases i with
        | zero => simpa using hfx
        | succ j =>
          exact ih ys1 ht j (Nat.lt_of_succ_lt_succ hi) (Nat.lt_of_succ_lt_succ hi2)

/-- A positive duration yields a positive frame count. -/
theorem frame_count_pos (d : ℚ) (hd : 0 < d) : 0 < frame_count d := by
  unfold frame_count
  exact Int.ceil_pos.mpr (div_pos hd (by norm_num))

/-- C1: for a descriptor with a css function and positive duration, the
driver's main-stage keyframe list has `n + 1` entries, `n = ceil(duration /
(1000/60))`, and entry i is the translation of `css(t, 1 - t)` at
`t = easing(i / n)`, in increasing order of i. -/
theorem claim_C1_driver_sampling :
    ∀ (c : DriverConfig) (css : ℚ → ℚ → String) (l : List Keyframe),
      c.css = some css → 0 < c.durationV → main_keyframes c = some l →
      l.length = (frame_count c.durationV).toNat + 1 ∧
      ∀ (i : ℕ) (hi : i < l.length),
        css_to_keyframe
          (css (c.easingV ((i : ℚ) / ((frame_count c.durationV : ℤ) : ℚ)))
            (1 - c.easingV ((i : ℚ) / ((frame_count c.durationV : ℤ) : ℚ)))) =
        some (l.get ⟨i, hi⟩) := by
  intro c css l hc hd hl
  have hn : 0 < frame_count c.durationV := frame_count_pos _ hd
  have hmain : traverse_opt
      (fun i => sample_keyframe c.easingV css (frame_count c.durationV) ((i : ℕ) : ℚ))
      (List.range ((frame_count c.durationV).toNat + 1)) = some l := by
    have := hl
    unfold main_keyframes at this
    rw [hc] at this
    unfold sampled_keyframes at this
    simp only [if_neg (by omega : ¬ frame_count c.durationV < 0)] at this
    exact this
  have hlen : l.length = (frame_count c.durationV).toNat + 1 := by
    rw [traverse_opt_length _ _ _ hmain, List.length_range]
  refine ⟨hlen, ?_⟩
  intro i hi
  have hi1 : i < (List.range ((frame_count c.durationV).toNat + 1)).length := by
    rw [List.length_range]
    omega
  have := traverse_opt_get _ _ _ hmain i hi1 hi
  rw [List.get_range] at this
  exact this

/-- A concrete descriptor for the C1 witness: duration 50 (so n = 3) and a
constant css text. -/
def c1_config : DriverConfig := ⟨none, some 50, some (fun _ _ => "a:1"), false, none⟩

/-- The main-stage keyframes of `c1_config`. -/
def c1_list : List Keyframe := [[("a", "1")], [("a", "1")], [("a", "1")], [("a", "1")]]

/-- C1 witness: the sampling theorem applied to `c1_config`. -/
theorem claim_C1_witness :
    (c1_config.css = some (fun _ _ => "a:1") ∧ 0 < c1_config.durationV ∧
      main_keyframes c1_config = some c1_list) ∧
    c1_list.length = (frame_count c1_config.durationV).toNat + 1 :=
  ⟨⟨rfl, by decide, by decide⟩,
   (claim_C1_driver_sampling c1_config (fun _ _ => "a:1") c1_list rfl (by decide) (by decide)).1⟩

/-- C9: `abort()` is idempotent on the handle's state, callable in any state
(including the delay stage, before the main animation starts), and after it no
completion callback is delivered: any number of further finish events produce
no outputs at all, in particular neither `tick(1,0)` nor `onFinish`. -/
theorem claim_C9_abort_idempotent :
    ∀ (c : DriverConfig) (s : DriverState) (k : ℕ),
      (driver_abort (driver_abort s).1).1 = (driver_abort s).1 ∧
      driver_finishes c (driver_abort s).1 k = [] := by
  intro c s k
  refine ⟨rfl, ?_⟩
  induction k with
  | zero => rfl
  | succ j ih =>
    simp only [driver_finishes, driver_abort, driver_finish]
    exact ih

/-- C6 counterexample: with `delay` absent (so `delay = 0`), the driver still
plays a preliminary animation — the identity keyframe pair with duration 0 —
before the main stage, refuting "if and only if delay > 0". -/
theorem claim_C6_counterexample :
    c6_config.delayV = 0 ∧
    animate_start c6_config =
      some (⟨DHandler.toMain, false, false⟩,
        [DriverOut.play [[("a", "1")], [("a", "1")]] 0 false]) := by
  refine ⟨by decide, by decide⟩

/-- C6 (amended): the driver always plays a preliminary animation lasting
`delay` ms (0 when `delay` is absent), whether or not `delay > 0`; only on its
finish does it sample and play the main keyframe animation over `duration` ms
with fill-forwards; and on the main animation's completion it invokes the
descriptor's `tick(1,0)` hook and then the caller's `onFinish`, in that
order. -/
theorem claim_C6_driver_stages :
    ∀ (c : DriverConfig) (kp km : List Keyframe),
      prelim_keyframes c = some kp → main_keyframes c = some km →
      animate_start c =
        some (⟨DHandler.toMain, false, false⟩, [DriverOut.play kp c.delayV false]) ∧
      driver_finish c ⟨DHandler.toMain, false, false⟩ =
        some (⟨DHandler.toComplete, true, false⟩, [DriverOut.play km c.durationV true]) ∧
      driver_finish c ⟨DHandler.toComplete, true, false⟩ =
        some (⟨DHandler.toComplete, true, false⟩,
          (if c.hasTick then [DriverOut.callTick] else []) ++ [DriverOut.callOnFinish]) := by
  intro c kp km h1 h2
  refine ⟨?_, ?_, rfl⟩
  · simp [animate_start, h1]
  · simp [driver_finish, h2]

/-- C6 witness: the two-stage trace of the concrete `c6_config`. -/
theorem claim_C6_witness :
    (prelim_keyframes c6_config = some [[("a", "1")], [("a", "1")]] ∧
      main_keyframes c6_config = some (List.replicate 7 [("a", "1")])) ∧
    driver_finish c6_config ⟨DHandler.toComplete, true, false⟩ =
      some (⟨DHandler.toComplete, true, false⟩,
        (if c6_config.hasTick then [DriverOut.callTick] else []) ++ [DriverOut.callOnFinish]) :=
  ⟨⟨by decide, by decide⟩,
   (claim_C6_driver_stages c6_config [[("a", "1")], [("a", "1")]]
     (List.replicate 7 [("a", "1")]) (by decide) (by decide)).2.2⟩

/-- A concrete hover-mode attachment configuration. -/
def hover_cfg : OrchConfig := ⟨2, none, none, none, some Mode.hover⟩

/-- A hover attachment after a `mouseenter`: listeners attached, `hovered`
set, a hover animation in flight. -/
def hover_state : OrchState :=
  orch_run (orch_attach hover_cfg ("block") none).1 [OEvent.enter]

/-- A concrete hover descriptor: duration 20 (so n = 2) with the probe css. -/
def c4_config : DriverConfig := ⟨none, some 20, some css_probe, false, none⟩

/-- The hover keyframes of `c4_config`, in the order the code builds them:
t = 1 first, t = 0 last. -/
def c4_start : HoverStart :=
  ⟨[[("opacity", "1")], [("opacity", "1")], [("opacity", "0")]], 20, 0, true, "linear"⟩

/-- C4 counterexample: with duration 20 and linear easing, the hover sampler
does NOT build the keyframe list the Animation Driver builds — the hover list
starts at t = 1 and ends at t = 0 (indices decrease), the reverse of the
driver's order. -/
theorem claim_C4_counterexample :
    hover_keyframes 20 linear_easing css_probe ≠ sampled_keyframes 20 linear_easing css_probe ∧
    hover_keyframes 20 linear_easing css_probe =
      some [[("opacity", "1")], [("opacity", "1")], [("opacity", "0")]] ∧
    sampled_keyframes 20 linear_easing css_probe =
      some [[("opacity", "0")], [("opacity", "1")], [("opacity", "1")]] := by
  refine ⟨by decide, by decide, by decide⟩

/-- C4 (amended): on pointer-enter the hover controller samples the descriptor
at `t = easing(i/n)` for i DECREASING from n to 0 (position j holds i = n - j;
the reverse of the Animation Driver's order), with easing pre-applied and the
native easing set to `'linear'`, playing with fill-both; on pointer-leave with
a run in flight it reverses that same native animation (the step's only output
is the reverse call — nothing is aborted or restarted) and the `hovered` flag
is reset to false in that same pointer-leave step, just before the reverse is
invoked. -/
theorem claim_C4_hover_sampling :
    (∀ (c : DriverConfig) (css : ℚ → ℚ → String) (hs : HoverStart),
      c.css = some css → 0 < c.durationV → start_hover_animation c = some hs →
      hs.easingSetting = "linear" ∧ hs.fillBoth = true ∧ hs.duration = c.durationV ∧
      hs.keyframes.length = (frame_count c.durationV).toNat + 1 ∧
      ∀ (j : ℕ) (hj : j < hs.keyframes.length),
        css_to_keyframe
          (css (c.easingV ((((frame_count c.durationV : ℤ) : ℚ) - (j : ℚ)) /
              ((frame_count c.durationV : ℤ) : ℚ)))
            (1 - c.easingV ((((frame_count c.durationV : ℤ) : ℚ) - (j : ℚ)) /
              ((frame_count c.durationV : ℤ) : ℚ)))) =
        some (hs.keyframes.get ⟨j, hj⟩)) ∧
    (∀ s : OrchState, s.listeners = true → s.hovered = true → s.hoverAnimDefined = true →
      orch_leave s = ({s with hovered := false, animated := false}, [OrchOut.reverseHover])) := by
  constructor
  · intro c css hs hc hd hstart
    have hn : 0 < frame_count c.durationV := frame_count_pos _ hd
    have hstart2 : Option.map
        (fun kfs => (⟨kfs, c.durationV, c.delayV, true, "linear"⟩ : HoverStart))
        (hover_keyframes c.durationV c.easingV css) = some hs := by
      have h := hstart
      unfold start_hover_animation at h
      rw [hc] at h
      exact h
    cases hk : hover_keyframes c.durationV c.easingV css with
    | none => rw [hk] at hstart2; cases hstart2
    | some kfs =>
      rw [hk] at hstart2
      cases hstart2
      refine ⟨rfl, rfl, rfl, ?_, ?_⟩
      · have := hk
        unfold hover_keyframes at this
        simp only [if_neg (by omega : ¬ frame_count c.durationV < 0)] at this
        rw [traverse_opt_length _ _ _ this, List.length_range]
      · intro j hj
        have hk2 : traverse_opt
            (fun j => sample_keyframe c.easingV css (frame_count c.durationV)
              ((frame_count c.durationV : ℚ) - ((j : ℕ) : ℚ)))
            (List.range ((frame_count c.durationV).toNat + 1)) = some kfs := by
          have := hk
          unfold hover_keyframes at this
          simp only [if_neg (by omega : ¬ frame_count c.durationV < 0)] at this
          exact this
        have hj0 : j < kfs.length := hj
        have hlen2 : kfs.length = (frame_count c.durationV).toNat + 1 := by
          rw [traverse_opt_length _ _ _ hk2, List.length_range]
        have hj1 : j < (List.range ((frame_count c.durationV).toNat + 1)).length := by
          rw [List.length_range]
          omega
        have := traverse_opt_get _ _ _ hk2 j hj1 hj0
        rw [List.get_range] at this
        exact this
  · intro s h1 h2 h3
    simp [orch_leave, h1, h2, h3]

/-- C4 witness: the amended claim applied to the concrete `c4_config` and to
the concrete hovered state. -/
theorem claim_C4_witness :
    ((c4_config.css = some css_probe ∧ 0 < c4_config.durationV ∧
        start_hover_animation c4_config = some c4_start) ∧
      c4_start.easingSetting = "linear" ∧ c4_start.fillBoth = true) ∧
    ((hover_state.listeners = true ∧ hover_state.hovered = true ∧
        hover_state.hoverAnimDefined = true) ∧
      orch_leave hover_state =
        ({hover_state with hovered := false, animated := false}, [OrchOut.reverseHover])) :=
  ⟨⟨⟨rfl, by decide, by decide⟩,
    (claim_C4_hover_sampling.1 c4_config css_probe c4_start rfl (by decide) (by decide)).1,
    (claim_C4_hover_sampling.1 c4_config css_probe c4_start rfl (by decide) (by decide)).2.1⟩,
   ⟨⟨by decide, by decide, by decide⟩,
    claim_C4_hover_sampling.2 hover_state (by decide) (by decide) (by decide)⟩⟩

/-- `start_animation` never changes the configuration. -/
theorem orch_start_animation_cfg (s : OrchState) : (orch_start_animation s).1.cfg = s.cfg := by
  unfold orch_start_animation
  by_cases h : (s.animated && s.cfg.once) = true
  · simp [h]
  · by_cases hm : s.cfg.mode = Mode.viewport <;> simp [h, hm]

/-- `start_animation` never touches the hover listeners. -/
theorem orch_start_animation_listeners (s : OrchState) :
    (orch_start_animation s).1.listeners = s.listeners := by
  unfold orch_start_animation
  by_cases h : (s.animated && s.cfg.once) = true
  · simp [h]
  · by_cases hm : s.cfg.mode = Mode.viewport <;> simp [h, hm]

/-- `setup` never changes the configuration. -/
theorem orch_setup_cfg (s : OrchState) (d0 : String) : (orch_setup s d0).1.cfg = s.cfg := by
  cases hm : s.cfg.mode with
  | viewport => simp [orch_setup, hm]
  | hover => simp [orch_setup, hm]
  | immediate => simp [orch_setup, hm, orch_start_animation_cfg]

/-- Outside immediate mode, `setup` leaves the trigger flags untouched. -/
theorem orch_setup_animated (s : OrchState) (d0 : String) (h : s.cfg.mode ≠ Mode.immediate) :
    (orch_setup s d0).1.animated = s.animated := by
  cases hm : s.cfg.mode with
  | viewport => simp [orch_setup, hm]
  | hover => simp [orch_setup, hm]
  | immediate => exact absurd hm h

/-- Outside immediate mode, `setup` leaves the hovered flag untouched. -/
theorem orch_setup_hovered (s : OrchState) (d0 : String) (h : s.cfg.mode ≠ Mode.immediate) :
    (orch_setup s d0).1.hovered = s.hovered := by
  cases hm : s.cfg.mode with
  | viewport => simp [orch_setup, hm]
  | hover => simp [orch_setup, hm]
  | immediate => exact absurd hm h

/-- Event delivery never changes the configuration. -/
theorem orch_step_cfg (s : OrchState) (e : OEvent) : (orch_step s e).1.cfg = s.cfg := by
  cases e with
  | intersect b =>
    simp only [orch_step, orch_intersect]
    by_cases hc : s.observerConnected = true
    · cases b
      · simp [hc]
      · by_cases ho : s.cfg.once = true <;>
          simp [hc, ho, orch_start_animation_cfg, orch_start_animation_listeners]
    · simp [hc]
  | driverFinish =>
    simp only [orch_step, orch_driver_finish]
    by_cases ha : s.animationDefined = true <;> simp [ha]
  | enter =>
    simp only [orch_step, orch_enter]
    by_cases hl : s.listeners = true
    · by_cases hh : s.hovered = true <;> simp [hl, hh]
    · simp [hl]
  | leave =>
    simp only [orch_step, orch_leave]
    by_cases hl : s.listeners = true
    · by_cases hh : s.hovered = true
      · by_cases hd : s.hoverAnimDefined = true <;> simp [hl, hh, hd]
      · simp [hl, hh]
    · simp [hl]

/-- Event delivery never attaches or removes the hover listeners. -/
theorem orch_step_listeners (s : OrchState) (e : OEvent) :
    (orch_step s e).1.listeners = s.listeners := by
  cases e with
  | intersect b =>
    simp only [orch_step, orch_intersect]
    by_cases hc : s.observerConnected = true
    · by_cases hb : b = true
      · subst hb
        simp only [hc, if_true]
        by_cases ho : (orch_start_animation s).1.cfg.once = true
        · simp [ho, orch_start_animation_listeners]
        · simp [ho, orch_start_animation_listeners]
      · have : b = false := by revert hb; cases b <;> simp
        subst this
        simp [hc]
    · simp [hc]
  | driverFinish =>
    simp only [orch_step, orch_driver_finish]
    by_cases ha : s.animationDefined = true <;> simp [ha]
  | enter =>
    simp only [orch_step, orch_enter]
    by_cases hl : s.listeners = true
    · by_cases hh : s.hovered = true <;> simp [hl, hh]
    · simp [hl]
  | leave =>
    simp only [orch_step, orch_leave]
    by_cases hl : s.listeners = true
    · by_cases hh : s.hovered = true
      · by_cases hd : s.hoverAnimDefined = true <;> simp [hl, hh, hd]
      · simp [hl, hh]
    · simp [hl]

/-- Without hover listeners, a step can only raise `animated` through an
intersecting entry. -/
theorem orch_step_animated_of (s : OrchState) (e : OEvent) (hl : s.listeners = false)
    (h : (orch_step s e).1.animated = true) :
    s.animated = true ∨ e = OEvent.intersect true := by
  cases e with
  | intersect b =>
    cases b
    · left
      simp only [orch_step, orch_intersect] at h
      by_cases hc : s.observerConnected = true <;> simp [hc] at h <;> exact h
    · right
      rfl
  | driverFinish =>
    left
    simp only [orch_step, orch_driver_finish] at h
    by_cases ha : s.animationDefined = true
    · simp only [ha, if_true] at h
      by_cases hm : s.cfg.mode = Mode.hover
      · simp [hm] at h
      · simpa [hm] using h
    · simpa [ha] using h
  | enter =>
    left
    simp only [orch_step, orch_enter, hl] at h
    simpa using h
  | leave =>
    left
    simp only [orch_step, orch_leave, hl] at h
    simpa using h

/-- Without hover listeners, with `once` set and outside hover mode, a step
never lowers `animated`. -/
theorem orch_step_animated_mono (s : OrchState) (e : OEvent) (hl : s.listeners = false)
    (ho : s.cfg.once = true) (hm : s.cfg.mode ≠ Mode.hover) (ha : s.animated = true) :
    (orch_step s e).1.animated = true := by
  cases e with
  | intersect b =>
    simp only [orch_step, orch_intersect]
    by_cases hc : s.observerConnected = true
    · cases b
      · simp [hc, ha]
      · have hstart : orch_start_animation s = (s, []) := by
          unfold orch_start_animation
          simp [ha, ho]
        simp [hc, hstart, ho, ha]
    · simp [hc, ha]
  | driverFinish =>
    simp only [orch_step, orch_driver_finish]
    by_cases had : s.animationDefined = true <;> simp [had, hm, ha]
  | enter =>
    simp only [orch_step, orch_enter, hl]
    simpa using ha
  | leave =>
    simp only [orch_step, orch_leave, hl]
    simpa using ha

/-- Event delivery preserves the configuration across a whole run. -/
theorem orch_run_cfg (evs : List OEvent) : ∀ s : OrchState, (orch_run s evs).cfg = s.cfg := by
  induction evs with
  | nil => intro s; rfl
  | cons e es ih =>
    intro s
    rw [orch_run, ih, orch_step_cfg]

/-- Event delivery preserves the listeners across a whole run. -/
theorem orch_run_listeners (evs : List OEvent) :
    ∀ s : OrchState, (orch_run s evs).listeners = s.listeners := by
  induction evs with
  | nil => intro s; rfl
  | cons e es ih =>
    intro s
    rw [orch_run, ih, orch_step_listeners]

/-- Without hover listeners, `animated` at the end of a run means it was
already set or an intersecting entry occurred. -/
theorem orch_run_animated_of (evs : List OEvent) :
    ∀ s : OrchState, s.listeners = false → (orch_run s evs).animated = true →
      s.animated = true ∨ OEvent.intersect true ∈ evs := by
  induction evs with
  | nil =>
    intro s _ h
    exact Or.inl h
  | cons e es ih =>
    intro s hl h
    rw [orch_run] at h
    have hl2 : (orch_step s e).1.listeners = false := by
      rw [orch_step_listeners]
      exact hl
    rcases ih _ hl2 h with h1 | h2
    · rcases orch_step_animated_of s e hl h1 with h3 | h4
      · exact Or.inl h3
      · subst h4
        exact Or.inr (List.mem_cons_self _ _)
    · exact Or.inr (List.mem_cons_of_mem _ h2)

/-- Without hover listeners, with `once` set and outside hover mode,
`animated` stays true across a whole run. -/
theorem orch_run_animated_mono (evs : List OEvent) :
    ∀ s : OrchState, s.listeners = false → s.cfg.once = true → s.cfg.mode ≠ Mode.hover →
      s.animated = true → (orch_run s evs).animated = true := by
  induction evs with
  | nil =>
    intro s _ _ _ ha
    exact ha
  | cons e es ih =>
    intro s hl ho hm ha
    rw [orch_run]
    refine ih _ ?_ ?_ ?_ ?_
    · rw [orch_step_listeners]
      exact hl
    · rw [orch_step_cfg]
      exact ho
    · rw [orch_step_cfg]
      exact hm
    · exact orch_step_animated_mono s e hl ho hm ha

/-- Attaching in viewport mode yields the fully explicit initial state. -/
theorem orch_attach_viewport_state (p : OrchConfig) (d0 : String) (nd : Option String)
    (h : (seed p).mode = Mode.viewport) :
    orch_attach p d0 nd =
      ({ cfg := seed p, animated := false, hovered := false, animationDefined := false,
         hoverAnimDefined := false, observerCreated := true, observerConnected := true,
         placeholderCreated := true, placeholderInDom := true,
         placeholderDisplay := nd.getD d0, nodeDisplay := some ("none"), listeners := false },
       [OrchOut.obsObserve]) := by
  simp [orch_attach, orch_setup, init_state, computed_display, h]

/-- Attaching never produces a configuration other than the seeded one. -/
theorem orch_attach_cfg (p : OrchConfig) (d0 : String) (nd : Option String) :
    (orch_attach p d0 nd).1.cfg = seed p := by
  unfold orch_attach
  rw [orch_setup_cfg]
  rfl

/-- Attaching outside hover mode leaves the listeners detached. -/
theorem orch_attach_listeners (p : OrchConfig) (d0 : String) (nd : Option String)
    (h : (seed p).mode ≠ Mode.hover) :
    (orch_attach p d0 nd).1.listeners = false := by
  unfold orch_attach
  cases hm : (seed p).mode with
  | viewport => simp [orch_setup, init_state, hm]
  | hover => exact absurd hm h
  | immediate =>
    simp only [orch_setup, init_state, hm]
    rw [orch_start_animation_listeners]

/-- The state reached by `update` is the state reached by re-running `setup`
on the current state with the configuration re-seeded and the observer
disconnected (if one was ever created); nothing else is reset. -/
theorem orch_update_state (s : OrchState) (p : OrchConfig) (d0 : String) :
    (orch_update s p d0).1 =
      (orch_setup
        { s with
          cfg := seed p,
          observerConnected := (if s.observerCreated then false else s.observerConnected) }
        d0).1 := by
  unfold orch_update
  by_cases h : s.observerCreated = true <;> simp [h]

/-- C3: evaluation of the code at the failing input. Attaching in viewport
mode and calling `destroy()` before the intersection trigger removes the
placeholder (swapping the node back into its slot) but leaves the node's
inline `display: none` set by `setup` untouched, so the node stays hidden —
contradicting the claim (and the code's own comment "Ensure node is visible if
action is destroyed"). A second `destroy()` changes nothing (and throws
nowhere: every step is `?.`-guarded), confirming the idempotence half. -/
theorem claim_C3_destroy_leaves_node_hidden :
    (orch_destroy (orch_attach viewport_cfg ("block") none).1).1.placeholderInDom = false ∧
    (orch_destroy (orch_attach viewport_cfg ("block") none).1).1.nodeDisplay = some ("none") ∧
    (orch_destroy (orch_destroy (orch_attach viewport_cfg ("block") none).1).1).1 =
      (orch_destroy (orch_attach viewport_cfg ("block") none).1).1 :=
  ⟨by decide, by decide, by decide⟩

/-- C5 counterexample: starting from a triggered viewport attachment,
`update` with the same configuration is NOT equivalent to `destroy()` plus a
fresh attachment: update preserves `animated = true` while the fresh
attachment starts with `animated = false`, the states differ, and on the next
intersection the update path starts no animation (its node stays
`display:none` behind the re-inserted placeholder forever) while the fresh
path starts one and restores the display. -/
theorem claim_C5_counterexample :
    stateU.animated = true ∧ stateD.animated = false ∧ stateU ≠ stateD ∧
    (orch_step stateU (OEvent.intersect true)).2 = [OrchOut.obsDisconnect] ∧
    (orch_step stateD (OEvent.intersect true)).2 =
      [OrchOut.startDriver 1 0, OrchOut.obsDisconnect] ∧
    (orch_run stateU [OEvent.intersect true]).nodeDisplay = some ("none") ∧
    (orch_run stateD [OEvent.intersect true]).nodeDisplay = some ("block") :=
  ⟨by decide, by decide, by decide, by decide, by decide, by decide, by decide⟩

/-- C5 (amended): `update(newParams)` aborts any in-flight animation (the
abort is the first output), disconnects any observer that was created,
replaces the whole configuration with the seeded `newParams` (defaults
`params = {}`, `threshold = 0.5`, `once = true`, `mode = 'viewport'`), and
re-runs `setup`; but it preserves the `animated` and `hovered` trigger flags
(outside immediate mode, where setup itself may trigger) and never removes
previously attached hover listeners, so it is not in general equivalent to
`destroy()` followed by a fresh attachment. -/
theorem claim_C5_update :
    (∀ (s : OrchState) (p : OrchConfig) (d0 : String),
      (orch_update s p d0).1.cfg = seed p) ∧
    (∀ t : ℕ, seed ⟨t, none, none, none, none⟩ = ⟨t, 0, 1 / 2, true, Mode.viewport⟩) ∧
    (∀ (s : OrchState) (p : OrchConfig) (d0 : String), s.animationDefined = true →
      (orch_update s p d0).2.head? = some OrchOut.abortDriver) ∧
    (∀ (s : OrchState) (p : OrchConfig) (d0 : String), s.observerCreated = true →
      OrchOut.obsDisconnect ∈ (orch_update s p d0).2) ∧
    (∀ (s : OrchState) (p : OrchConfig) (d0 : String), (seed p).mode ≠ Mode.immediate →
      (orch_update s p d0).1.animated = s.animated ∧
      (orch_update s p d0).1.hovered = s.hovered) ∧
    (∀ (s : OrchState) (p : OrchConfig) (d0 : String), s.listeners = true →
      (orch_update s p d0).1.listeners = true) := by
  refine ⟨?_, ?_, ?_, ?_, ?_, ?_⟩
  · intro s p d0
    unfold orch_update
    by_cases h : s.observerCreated = true <;> simp [h, orch_setup_cfg]
  · intro t
    rfl
  · intro s p d0 h
    unfold orch_update
    simp [h]
  · intro s p d0 h
    unfold orch_update
    simp [h]
  · intro s p d0 hm
    rw [orch_update_state]
    exact ⟨orch_setup_animated _ _ (by exact hm), orch_setup_hovered _ _ (by exact hm)⟩
  · intro s p d0 h
    rw [orch_update_state]
    cases hm : (seed p).mode with
    | viewport => simp [orch_setup, hm, h]
    | hover => simp [orch_setup, hm]
    | immediate =>
      simp only [orch_setup, hm]
      rw [orch_start_animation_listeners]
      exact h

/-- C5 witness: the amended claim applied to the concrete triggered viewport
state and to a concrete hovered state. -/
theorem claim_C5_witness :
    (orch_update stateA viewport_cfg ("block")).1.cfg = seed viewport_cfg ∧
    seed ⟨1, none, none, none, none⟩ = ⟨1, 0, 1 / 2, true, Mode.viewport⟩ ∧
    (stateA.animationDefined = true ∧
      (orch_update stateA viewport_cfg ("block")).2.head? = some OrchOut.abortDriver) ∧
    (stateA.observerCreated = true ∧
      OrchOut.obsDisconnect ∈ (orch_update stateA viewport_cfg ("block")).2) ∧
    ((seed viewport_cfg).mode ≠ Mode.immediate ∧
      (orch_update stateA viewport_cfg ("block")).1.animated = stateA.animated) ∧
    (hover_state.listeners = true ∧
      (orch_update hover_state viewport_cfg ("block")).1.listeners = true) :=
  ⟨claim_C5_update.1 stateA viewport_cfg ("block"),
   claim_C5_update.2.1 1,
   ⟨by decide, claim_C5_update.2.2.1 stateA viewport_cfg ("block") (by decide)⟩,
   ⟨by decide, claim_C5_update.2.2.2.1 stateA viewport_cfg ("block") (by decide)⟩,
   ⟨by decide,
    (claim_C5_update.2.2.2.2.1 stateA viewport_cfg ("block") (by decide)).1⟩,
   ⟨by decide, claim_C5_update.2.2.2.2.2 hover_state viewport_cfg ("block") (by decide)⟩⟩

/-- C7: (i) from a viewport attachment, `animated` is true only after an
intersecting entry has been delivered; (ii) with `once = true` and outside
hover mode, once `animated` is true it stays true under any further events;
(iii) with `once = true` in viewport mode, the first intersecting entry starts
the driver and disconnects the observer, and a second entry is a complete
no-op (no new animation); (iv) in hover mode (listeners attached, `hovered`
set) a pointer-leave flips `animated` back to false, so the cycle can
repeat. -/
theorem claim_C7_animated_invariant :
    (∀ (p : OrchConfig) (d0 : String) (nd : Option String) (evs : List OEvent),
      (seed p).mode = Mode.viewport →
      (orch_run (orch_attach p d0 nd).1 evs).animated = true →
      OEvent.intersect true ∈ evs) ∧
    (∀ (p : OrchConfig) (d0 : String) (nd : Option String) (evs1 evs2 : List OEvent),
      (seed p).once = true → (seed p).mode ≠ Mode.hover →
      (orch_run (orch_attach p d0 nd).1 evs1).animated = true →
      (orch_run (orch_run (orch_attach p d0 nd).1 evs1) evs2).animated = true) ∧
    (∀ (p : OrchConfig) (d0 : String) (nd : Option String),
      (seed p).mode = Mode.viewport → (seed p).once = true →
      (orch_intersect (orch_attach p d0 nd).1 true).1.observerConnected = false ∧
      OrchOut.startDriver (seed p).transitionId (seed p).paramsId ∈
        (orch_intersect (orch_attach p d0 nd).1 true).2 ∧
      orch_intersect (orch_intersect (orch_attach p d0 nd).1 true).1 true =
        ((orch_intersect (orch_attach p d0 nd).1 true).1, [])) ∧
    (∀ s : OrchState, s.listeners = true → s.hovered = true →
      (orch_leave s).1.animated = false) := by
  refine ⟨?_, ?_, ?_, ?_⟩
  · intro p d0 nd evs hv h
    have hl : (orch_attach p d0 nd).1.listeners = false :=
      orch_attach_listeners p d0 nd (by rw [hv]; intro hc; cases hc)
    rcases orch_run_animated_of evs _ hl h with h1 | h2
    · rw [orch_attach_viewport_state p d0 nd hv] at h1
      cases h1
    · exact h2
  · intro p d0 nd evs1 evs2 ho hm h
    have hl : (orch_attach p d0 nd).1.listeners = false := orch_attach_listeners p d0 nd hm
    refine orch_run_animated_mono evs2 _ ?_ ?_ ?_ h
    · rw [orch_run_listeners, hl]
    · rw [orch_run_cfg, orch_attach_cfg]
      exact ho
    · rw [orch_run_cfg, orch_attach_cfg]
      exact hm
  · intro p d0 nd hv ho
    rw [orch_attach_viewport_state p d0 nd hv]
    refine ⟨?_, ?_, ?_⟩ <;> simp [orch_intersect, orch_start_animation, hv, ho]
  · intro s h1 h2
    unfold orch_leave
    by_cases h3 : s.hoverAnimDefined = true <;> simp [h1, h2, h3]

/-- C7 witness: the four parts of the invariant applied to the concrete
viewport and hover attachments. -/
theorem claim_C7_witness :
    OEvent.intersect true ∈ [OEvent.intersect true] ∧
    (orch_run (orch_run (orch_attach viewport_cfg ("block") none).1 [OEvent.intersect true])
      [OEvent.driverFinish]).animated = true ∧
    ((orch_intersect (orch_attach viewport_cfg ("block") none).1 true).1.observerConnected =
        false ∧
      OrchOut.startDriver (seed viewport_cfg).transitionId (seed viewport_cfg).paramsId ∈
        (orch_intersect (orch_attach viewport_cfg ("block") none).1 true).2 ∧
      orch_intersect (orch_intersect (orch_attach viewport_cfg ("block") none).1 true).1 true =
        ((orch_intersect (orch_attach viewport_cfg ("block") none).1 true).1, [])) ∧
    (orch_leave hover_state).1.animated = false :=
  ⟨claim_C7_animated_invariant.1 viewport_cfg ("block") none [OEvent.intersect true]
    (by decide) (by decide),
   claim_C7_animated_invariant.2.1 viewport_cfg ("block") none [OEvent.intersect true]
    [OEvent.driverFinish] (by decide) (by decide) (by decide),
   claim_C7_animated_invariant.2.2.1 viewport_cfg ("block") none (by decide) (by decide),
   claim_C7_animated_invariant.2.2.2 hover_state (by decide) (by decide)⟩
